import Mathlib

/-!
Verification development for the Jira-Organizer backend (`backend/server.py`).

The definitions below are a shallow embedding of the pure logic of the
backend: string normalisation and matching, the hierarchy builder
(`JiraAPIClient.get_hierarchical_structure`), the issue-type level resolver
(`JiraAPIClient._determine_hierarchy_level` / `_validate_and_fix_hierarchy`),
the parent resolver and batch executor inside the `approve_proposals`
endpoint, and the analysis record updates performed by `approve_proposals`
and `delete_analysis`.  Network calls to the Jira gateway are modelled by an
explicit environment mapping a call history to the gateway's response; the
database rows are modelled by explicit record values.
-/

set_option autoImplicit false

namespace JiraOrganizer

/-! ## String primitives

Python string operations used by the backend, modelled over `String.data`
(`List Char`) so that everything reduces in the kernel.  `str.lower` is
modelled as ASCII lowercasing (all type names and summaries handled by the
backend's matching logic are compared after `.lower()`, and the multilingual
keywords involved are ASCII apart from `attività`, which contains no
uppercase letters). -/

/-- ASCII lowercasing of one character, modelling `str.lower` per character. -/
def lowerChar (c : Char) : Char :=
  if 'A' ≤ c ∧ c ≤ 'Z' then Char.ofNat (c.toNat + 32) else c

/-- Model of Python `s.lower()`. -/
def strLower (s : String) : String :=
  ⟨s.data.map lowerChar⟩

/-- Python whitespace characters recognised by `str.strip` / `str.split`. -/
def isWS (c : Char) : Bool :=
  c == ' ' || c == '\t' || c == '\n' || c == '\r' || c == '\x0b' || c == '\x0c'

/-- Model of Python `s.strip()`: drop whitespace from both ends. -/
def strTrim (s : String) : String :=
  ⟨((s.data.dropWhile isWS).reverse.dropWhile isWS).reverse⟩

/-- Splitting worker: `acc` is the current token accumulated in reverse. -/
def splitWSAux : List Char → List Char → List (List Char)
  | acc, [] => if acc.isEmpty then [] else [acc.reverse]
  | acc, c :: rest =>
    if isWS c then
      if acc.isEmpty then splitWSAux [] rest else acc.reverse :: splitWSAux [] rest
    else
      splitWSAux (c :: acc) rest

/-- Model of Python `s.split()` (no separator): split on whitespace runs,
dropping empty tokens. -/
def strTokens (s : String) : List String :=
  (splitWSAux [] s.data).map (fun l => ⟨l⟩)

/-- `summary.lower().strip()`, the normalisation applied before every title
comparison in the backend. -/
def normTitle (s : String) : String :=
  strTrim (strLower s)

/-- Whether `pat` occurs at the start of `l`. -/
def listStartsWith : List Char → List Char → Bool
  | [], _ => true
  | _ :: _, [] => false
  | p :: ps, c :: cs => p == c && listStartsWith ps cs

/-- Whether `pat` occurs contiguously somewhere in the second list. -/
def containsSub (pat : List Char) : List Char → Bool
  | [] => pat.isEmpty
  | c :: rest => listStartsWith pat (c :: rest) || containsSub pat rest

/-- Model of Python `pat in s` on strings (substring containment). -/
def pyIn (pat s : String) : Bool :=
  containsSub pat.data s.data

/-- Python truthiness of an optional string field (`if proposal.get(f):`):
`None` and the empty string are falsy. -/
def optStrTruthy : Option String → Bool
  | none => false
  | some s => s ≠ ""

/-! ## Token-set similarity

`find_matching_epic` computes
`len(A ∩ B) / max(len(A), len(B)) >= 0.7` over the two summaries' whitespace
token sets.  We model the floating-point comparison by the exact rational
inequality `10*|A ∩ B| ≥ 7*max(|A|,|B|)`; for the token-set sizes occurring
here (far below 2^50) the IEEE-double evaluation of the division and the
comparison against the literal `0.7` agree with the exact comparison, since
no ratio of such small integers lies strictly between `0.7` and the double
nearest to `0.7`. -/

/-- Distinct whitespace tokens of a (already normalised) summary, modelling
`set(s.split())`. -/
def tokenSet (s : String) : List String :=
  (strTokens s).dedup

/-- The `>= 0.7` token-set similarity test of `find_matching_epic`, including
its guard that both token sets are non-empty. -/
def similarityReached (a b : String) : Bool :=
  let A := tokenSet a
  let B := tokenSet b
  if A.length > 0 && B.length > 0 then
    decide (10 * (A.filter (fun t => B.contains t)).length ≥ 7 * max A.length B.length)
  else
    false

/-! ## Hierarchy builder (`JiraAPIClient.get_hierarchical_structure`)

The raw ticket list returned by `get_project_tickets` is classified into the
`epics` / `stories` / `tasks` / `subtasks` / `orphaned` buckets and then
linked.  Each dict bucket is modelled as a list of records in insertion
order (Python dicts preserve insertion order; re-assigning an existing key
keeps its position). -/

/-- The per-ticket record stored in a bucket (`ticket_info` in the code). -/
structure TicketInfo where
  key : String
  summary : String
  description : String
  status : String
  parent_key : Option String
  children : List String
  deriving DecidableEq, Repr

/-- A raw ticket as read from the gateway's flat list. -/
structure RawTicket where
  key : String
  issue_type_name : String
  summary : String
  description : String
  status : String
  parent_key : Option String
  deriving DecidableEq, Repr

/-- The fresh `ticket_info` dict built for a raw ticket. -/
def mkTicketInfo (t : RawTicket) : TicketInfo :=
  ⟨t.key, t.summary, t.description, t.status, t.parent_key, []⟩

/-- The five buckets of the hierarchical structure. -/
structure HierarchyStructure where
  epics : List TicketInfo
  stories : List TicketInfo
  tasks : List TicketInfo
  subtasks : List TicketInfo
  orphaned : List TicketInfo
  deriving DecidableEq, Repr

def emptyStructure : HierarchyStructure := ⟨[], [], [], [], []⟩

/-- Insertion-ordered dict assignment `bucket[key] = info`: replace in place
if the key is present, otherwise append. -/
def dictInsert (bucket : List TicketInfo) (info : TicketInfo) : List TicketInfo :=
  if bucket.any (fun u => u.key == info.key) then
    bucket.map (fun u => if u.key == info.key then info else u)
  else
    bucket ++ [info]

/-- `key in bucket` for a dict bucket. -/
def hasKey (bucket : List TicketInfo) (k : String) : Bool :=
  bucket.any (fun u => u.key == k)

/-- First pass of `get_hierarchical_structure`: route one ticket to its
bucket by exact comparison of the lowercased issue-type name. -/
def organizeStep (hs : HierarchyStructure) (t : RawTicket) : HierarchyStructure :=
  let itl := strLower t.issue_type_name
  let info := mkTicketInfo t
  if itl == "epic" then { hs with epics := dictInsert hs.epics info }
  else if itl == "story" then { hs with stories := dictInsert hs.stories info }
  else if itl == "task" then { hs with tasks := dictInsert hs.tasks info }
  else if itl == "subtask" || itl == "sub-task" then { hs with subtasks := dictInsert hs.subtasks info }
  else { hs with orphaned := hs.orphaned ++ [info] }

/-- First pass over the whole flat list. -/
def organizeTickets (raws : List RawTicket) : HierarchyStructure :=
  raws.foldl organizeStep emptyStructure

/-- `bucket[parent]["children"].append(child)` on the dict bucket model. -/
def appendChild (bucket : List TicketInfo) (parentKey childKey : String) : List TicketInfo :=
  bucket.map (fun t => if t.key == parentKey then { t with children := t.children ++ [childKey] } else t)

/-- Linking step for one story: `if story["parent_key"] and
story["parent_key"] in structure["epics"]`. -/
def storyLinkStep (acc : HierarchyStructure) (story : TicketInfo) : HierarchyStructure :=
  match story.parent_key with
  | some pk =>
    if pk != "" && hasKey acc.epics pk then
      { acc with epics := appendChild acc.epics pk story.key }
    else acc
  | none => acc

/-- Linking step for one task: parent searched in stories, then epics. -/
def taskLinkStep (acc : HierarchyStructure) (task : TicketInfo) : HierarchyStructure :=
  match task.parent_key with
  | some pk =>
    if pk != "" then
      if hasKey acc.stories pk then
        { acc with stories := appendChild acc.stories pk task.key }
      else if hasKey acc.epics pk then
        { acc with epics := appendChild acc.epics pk task.key }
      else acc
    else acc
  | none => acc

/-- Linking step for one subtask: parent searched in stories, then tasks. -/
def subtaskLinkStep (acc : HierarchyStructure) (sub : TicketInfo) : HierarchyStructure :=
  match sub.parent_key with
  | some pk =>
    if pk != "" then
      if hasKey acc.stories pk then
        { acc with stories := appendChild acc.stories pk sub.key }
      else if hasKey acc.tasks pk then
        { acc with tasks := appendChild acc.tasks pk sub.key }
      else acc
    else acc
  | none => acc

/-- Second pass of `get_hierarchical_structure`: the three linking loops, in
source order.  Each loop iterates over a bucket that its own body never
mutates. -/
def linkStructure (hs : HierarchyStructure) : HierarchyStructure :=
  let hs1 := hs.stories.foldl storyLinkStep hs
  let hs2 := hs1.tasks.foldl taskLinkStep hs1
  hs2.subtasks.foldl subtaskLinkStep hs2

/-- `get_hierarchical_structure` given the flat ticket list already fetched
from the gateway. -/
def getHierarchicalStructure (raws : List RawTicket) : HierarchyStructure :=
  linkStructure (organizeTickets raws)

/-! ## Issue-type resolution (`get_project_issue_types`)

The metadata dict maps normalised names and semantic aliases to shared
mutable `issue_type_info` dicts.  Sharing matters: the fix-ups in
`_validate_and_fix_hierarchy` mutate an info dict through one alias and the
change is visible through every alias.  We therefore model the info dicts as
an array of records (one per raw issue type, in declaration order) and the
metadata dict as an insertion-ordered association list from key strings to
record indices. -/

/-- A raw issue type from the project metadata (`name`, `id`, subtask flag). -/
structure RawIssueType where
  id : String
  name : String
  subtask : Bool
  deriving DecidableEq, Repr

/-- The `issue_type_info` dict. -/
structure IssueTypeInfo where
  id : String
  name : String
  hierarchy_level : Int
  subtask : Bool
  deriving DecidableEq, Repr

/-- `JiraAPIClient._determine_hierarchy_level`. -/
def determineHierarchyLevel (nameLower : String) (it : RawIssueType) : Int :=
  if it.subtask || pyIn "sub" nameLower || pyIn "sotto" nameLower then 0
  else if pyIn "epic" nameLower || pyIn "initiative" nameLower then 3
  else if pyIn "story" nameLower || pyIn "storia" nameLower || pyIn "feature" nameLower then 2
  else if pyIn "task" nameLower || pyIn "attività" nameLower || pyIn "bug" nameLower || pyIn "difetto" nameLower then 1
  else 1

/-- The metadata dict: keys mapping to indices into the shared record array. -/
abbrev TypeMap := List (String × Nat)

/-- Dict assignment on the metadata map (replace in place or append). -/
def mapInsert (m : TypeMap) (k : String) (v : Nat) : TypeMap :=
  if m.any (fun p => p.1 == k) then
    m.map (fun p => if p.1 == k then (k, v) else p)
  else
    m ++ [(k, v)]

/-- Dict lookup `m[k]` (first matching key; keys are unique by construction). -/
def mapLookup (m : TypeMap) (k : String) : Option Nat :=
  (m.find? (fun p => p.1 == k)).map (fun p => p.2)

/-- `k in m`. -/
def mapHas (m : TypeMap) (k : String) : Bool :=
  m.any (fun p => p.1 == k)

/-- Register one raw issue type: store the info record, key it by its
lowercased name, and add the semantic alias chosen by the `elif` chain in
`get_project_issue_types`. -/
def registerIssueType (st : List IssueTypeInfo × TypeMap) (it : RawIssueType) :
    List IssueTypeInfo × TypeMap :=
  let (records, m) := st
  let nl := strLower it.name
  let info : IssueTypeInfo := ⟨it.id, it.name, determineHierarchyLevel nl it, it.subtask⟩
  let i := records.length
  let m := mapInsert m nl i
  let m :=
    if pyIn "epic" nl then mapInsert m "epic" i
    else if pyIn "story" nl || pyIn "storia" nl then mapInsert m "story" i
    else if (nl == "task" || nl == "attività" || nl == "compito")
        && !pyIn "sub" nl && !pyIn "sotto" nl then mapInsert m "task" i
    else if pyIn "sub" nl || pyIn "sotto" nl || it.subtask then
      mapInsert (mapInsert m "subtask" i) "sub-task" i
    else if pyIn "bug" nl || pyIn "difetto" nl then mapInsert m "bug" i
    else m
  (records ++ [info], m)

/-- The metadata construction loop of `get_project_issue_types`, before the
fix-ups. -/
def buildMetadata (raws : List RawIssueType) : List IssueTypeInfo × TypeMap :=
  raws.foldl registerIssueType ([], [])

/-- Mutate the hierarchy level of the record a map entry points at. -/
def setLevelAt (records : List IssueTypeInfo) (i : Nat) (lvl : Int) : List IssueTypeInfo :=
  records.modify (fun rec => { rec with hierarchy_level := lvl }) i

/-- The Story/Task collision fix-up: if both aliases exist and resolve to the
same level, lower the Task record's level by one. -/
def storyTaskFix (records : List IssueTypeInfo) (m : TypeMap) : List IssueTypeInfo :=
  match mapLookup m "story", mapLookup m "task" with
  | some si, some ti =>
    match records.get? si, records.get? ti with
    | some sRec, some tRec =>
      if sRec.hierarchy_level == tRec.hierarchy_level then
        setLevelAt records ti (tRec.hierarchy_level - 1)
      else records
    | _, _ => records
  | _, _ => records

/-- `min(it['hierarchy_level'] for it in issue_types.values() if not
it.get('subtask', False))`: the minimum level among records referenced by
the map whose subtask flag is false.  `none` models the `ValueError` raised
by `min` on an empty sequence (which the surrounding `except` swallows,
returning the dict as mutated so far). -/
def minNonSubtaskLevel (records : List IssueTypeInfo) (m : TypeMap) : Option Int :=
  let levels := ((m.map (fun p => p.2)).filterMap (fun i => records.get? i)).filterMap
    (fun rec => if rec.subtask then none else some rec.hierarchy_level)
  match levels with
  | [] => none
  | l :: ls => some (ls.foldl min l)

/-- `JiraAPIClient._validate_and_fix_hierarchy`.  The dict itself (the key
set) is never changed, only levels of the shared records. -/
def validateAndFixHierarchy (records : List IssueTypeInfo) (m : TypeMap) :
    List IssueTypeInfo × TypeMap :=
  if !mapHas m "epic" && !mapHas m "story" then (records, m)
  else
    let records := storyTaskFix records m
    match mapLookup m "subtask" with
    | none => (records, m)
    | some si =>
      match minNonSubtaskLevel records m with
      | none => (records, m)
      | some minL =>
        let records := setLevelAt records si (minL - 1)
        let records :=
          match mapLookup m "sub-task" with
          | some sti => setLevelAt records sti (minL - 1)
          | none => records
        (records, m)

/-- The per-project issue-type resolution pipeline of
`get_project_issue_types` (metadata build followed by the fix-ups). -/
def resolveIssueTypes (raws : List RawIssueType) : List IssueTypeInfo × TypeMap :=
  let (records, m) := buildMetadata raws
  validateAndFixHierarchy records m

/-! ## Matching and parent resolution

`find_matching_epic` and the inline parent-resolution logic of
`approve_proposals` (lines 1517–1562 of `server.py`). -/

/-- The candidate loop of `JiraAPIClient.find_matching_epic`: for each epic,
in bucket order, first the exact normalised comparison, then the similarity
test; the first hit wins.  `q` is the already normalised query summary. -/
def findMatchingEpicLoop (q : String) : List TicketInfo → Option String
  | [] => none
  | e :: rest =>
    if normTitle e.summary == q then some e.key
    else if similarityReached q (normTitle e.summary) then some e.key
    else findMatchingEpicLoop q rest

/-- `JiraAPIClient.find_matching_epic` over the epics bucket. -/
def findMatchingEpic (epicSummary : String) (epics : List TicketInfo) : Option String :=
  findMatchingEpicLoop (normTitle epicSummary) epics

/-- The exact-match search loops used for Task → Story and Subtask → Task
parents in `approve_proposals`: first bucket entry whose normalised summary
equals the normalised parent summary. -/
def findByExactSummary (q : String) : List TicketInfo → Option String
  | [] => none
  | t :: rest =>
    if normTitle t.summary == q then some t.key else findByExactSummary q rest

/-- The in-batch `created_tickets` dict (summary → new ticket key); inserts
cons at the head, lookup takes the most recent binding, i.e. dict overwrite
semantics.  The lookup `parent_summary in created_tickets` is raw string
equality. -/
def lookupCreated (created : List (String × String)) (s : String) : Option String :=
  (created.find? (fun kv => kv.1 == s)).map (fun kv => kv.2)

/-- Lowercased issue-type names treated as subtasks by `approve_proposals`. -/
def isSubtaskTL (itl : String) : Bool :=
  itl == "subtask" || itl == "sub-task" || itl == "sottotask"

/-- The parent-resolution block of `approve_proposals` for a `create`
proposal: batch cache first (raw exact membership), then the bucket dictated
by the proposed type.  `itl` is `proposal['issue_type'].lower()`. -/
def resolveParent (itl : String) (parentSummary : Option String)
    (created : List (String × String)) (hs : HierarchyStructure) : Option String :=
  match parentSummary with
  | none => none
  | some ps =>
    if ps == "" then none
    else
      match lookupCreated created ps with
      | some k => some k
      | none =>
        if itl == "story" then findMatchingEpic ps hs.epics
        else if itl == "task" then findByExactSummary (normTitle ps) hs.stories
        else if isSubtaskTL itl then findByExactSummary (normTitle ps) hs.tasks
        else none

/-! ## Batch execution (`approve_proposals`)

The endpoint body after the analysis and configuration rows have been
fetched.  Gateway calls (`create_ticket` / `update_ticket`) are the only
external effects inside the item loop; both catch their own exceptions and
return `None` / `False`, so they are modelled by an environment mapping the
call history (including the call being made) to the response.  The
`validation_errors` pre-pass of the endpoint only logs and is therefore not
modelled; the `failed_parents` set is assigned once and never read. -/

/-- A proposal as stored in `proposed_changes` (the `ProposedTicket` model). -/
structure Proposal where
  action : String
  ticket_key : Option String
  issue_type : String
  summary : String
  description : String
  story_points : Option Int
  priority : Option String
  parent_summary : Option String
  dependencies : Option (List String)
  reasoning : String
  deriving DecidableEq, Repr

/-- The `ApprovalRequest` body; indices are Python ints. -/
structure ApprovalRequest where
  approved_indices : List Int
  rejected_indices : List Int
  deriving DecidableEq, Repr

/-- Arguments of one `create_ticket` gateway call. -/
structure CreateCall where
  project_key : String
  issue_type : String
  summary : String
  description : String
  parent_key : Option String
  story_points : Option Int
  priority : Option String
  deriving DecidableEq, Repr

/-- A call made to the Jira gateway during the batch. -/
inductive GatewayCall where
  | create (c : CreateCall)
  | update (ticket_key summary description : String)
  deriving DecidableEq, Repr

/-- The external world: responses of `create_ticket` (`Option` new key) and
`update_ticket` (success flag), as a function of the call history including
the current call. -/
structure Env where
  createResp : List GatewayCall → Option String
  updateResp : List GatewayCall → Bool

/-- One entry of the `results` list returned by the endpoint. -/
inductive ItemResult where
  | createFailedHierarchy (index : Int) (error : String)
  | createDone (index : Int) (success : Bool) (ticket_key : Option String)
      (parent_key : Option String) (issue_type summary hierarchy_level : String)
  | modifyDone (index : Int) (success : Bool) (ticket_key : String)
  | reuseDone (index : Int) (ticket_key : Option String)
  deriving DecidableEq, Repr

/-- The `index` field of a result entry. -/
def ItemResult.index : ItemResult → Int
  | .createFailedHierarchy i _ => i
  | .createDone i _ _ _ _ _ _ => i
  | .modifyDone i _ _ => i
  | .reuseDone i _ => i

/-- The `success` field of a result entry. -/
def ItemResult.success : ItemResult → Bool
  | .createFailedHierarchy _ _ => false
  | .createDone _ s _ _ _ _ _ => s
  | .modifyDone _ s _ => s
  | .reuseDone _ _ => true

/-- The `hierarchy_level` label recorded on a create result. -/
def hierLabel (issueType : String) : String :=
  if strLower issueType == "epic" then "Epic"
  else if strLower issueType == "story" || strLower issueType == "task" then "Story"
  else "Subtask"

/-- Python list indexing `l[i]` with negative-index wrap-around; `none`
models an `IndexError`. -/
def pyGet {α : Type} (l : List α) (i : Int) : Option α :=
  if 0 ≤ i then l.get? i.toNat
  else if 0 ≤ i + (l.length : Int) then l.get? (i + (l.length : Int)).toNat
  else none

/-- The selection comprehension
`[(idx, proposed_changes[idx]) for idx in approval.approved_indices if idx < len(proposed_changes)]`;
`none` models the `IndexError` raised (and turned into a 500 response) when
some kept index is below `-len(proposed_changes)`. -/
def selectApproved (approved : List Int) (changes : List Proposal) :
    Option (List (Int × Proposal)) :=
  match approved with
  | [] => some []
  | idx :: rest =>
    if idx < (changes.length : Int) then
      match pyGet changes idx with
      | none => none
      | some p => (selectApproved rest changes).map (fun l => (idx, p) :: l)
    else selectApproved rest changes

/-- `hierarchy_order.get(issue_type, 6)` with the literal rank dict
`{"Epic": 1, "Story": 2, "Task": 3, "Subtask": 4, "Sub-task": 4, "Bug": 5}`
(exact, case-sensitive keys). -/
def hierarchyRank (issueType : String) : Nat :=
  if issueType == "Epic" then 1
  else if issueType == "Story" then 2
  else if issueType == "Task" then 3
  else if issueType == "Subtask" then 4
  else if issueType == "Sub-task" then 4
  else if issueType == "Bug" then 5
  else 6

/-- Stable insertion into a rank-sorted list: an element goes after every
element of strictly smaller rank and before equal ranks coming later. -/
def insertByRank (x : Int × Proposal) : List (Int × Proposal) → List (Int × Proposal)
  | [] => [x]
  | y :: ys =>
    if hierarchyRank y.2.issue_type < hierarchyRank x.2.issue_type then
      y :: insertByRank x ys
    else x :: y :: ys

/-- `approved_proposals.sort(key=...)`: a stable ascending sort by hierarchy
rank (any stable sort computes the same list as Python's). -/
def sortByRank (l : List (Int × Proposal)) : List (Int × Proposal) :=
  l.foldr insertByRank []

/-- The error message recorded for a subtask without a resolvable parent. -/
def subtaskParentError : String :=
  "Subtask requires Task parent - hierarchy validation failed"

/-- The per-item loop of `approve_proposals`: processes the sorted
`(index, proposal)` pairs, threading the `created_tickets` cache and the
gateway call history.  Returns the `results` list, the final cache and the
final call history.  The `except` branch of the loop is unreachable in this
model: every field access is total and both gateway wrappers catch their own
exceptions. -/
def processItems (env : Env) (projectKey : String) (hs : HierarchyStructure) :
    List (Int × Proposal) → List (String × String) → List GatewayCall →
    List ItemResult × List (String × String) × List GatewayCall
  | [], created, calls => ([], created, calls)
  | (idx, p) :: rest, created, calls =>
    if p.action == "create" then
      let itl := strLower p.issue_type
      let resolved := resolveParent itl p.parent_summary created hs
      if resolved.isNone && isSubtaskTL itl then
        let tl := processItems env projectKey hs rest created calls
        (.createFailedHierarchy idx subtaskParentError :: tl.1, tl.2)
      else
        let call := GatewayCall.create
          ⟨projectKey, p.issue_type, p.summary, p.description, resolved, p.story_points, p.priority⟩
        let calls := calls ++ [call]
        let key? := env.createResp calls
        let created :=
          match key? with
          | some k => (p.summary, k) :: created
          | none => created
        let tl := processItems env projectKey hs rest created calls
        (.createDone idx key?.isSome key? resolved p.issue_type p.summary (hierLabel p.issue_type) :: tl.1, tl.2)
    else if p.action == "modify" && optStrTruthy p.ticket_key then
      let tk := (p.ticket_key).getD ""
      let calls := calls ++ [GatewayCall.update tk p.summary p.description]
      let ok := env.updateResp calls
      let tl := processItems env projectKey hs rest created calls
      (.modifyDone idx ok tk :: tl.1, tl.2)
    else if p.action == "reuse_existing" then
      let tl := processItems env projectKey hs rest created calls
      (.reuseDone idx p.ticket_key :: tl.1, tl.2)
    else
      processItems env projectKey hs rest created calls

/-- What the endpoint computes for the response and the status update. -/
structure ApproveOutcome where
  results : List ItemResult
  calls : List GatewayCall
  status : String
  deriving DecidableEq, Repr

/-- `approve_proposals` after the analysis row, configuration and hierarchy
snapshot are available: select, sort, execute, and compute the new status.
`none` models the `IndexError` 500 path of the selection comprehension. -/
def approveProposals (env : Env) (projectKey : String) (hs : HierarchyStructure)
    (changes : List Proposal) (req : ApprovalRequest) : Option ApproveOutcome :=
  match selectApproved req.approved_indices changes with
  | none => none
  | some sel =>
    let sorted := sortByRank sel
    let out := processItems env projectKey hs sorted [] []
    let status :=
      if req.approved_indices.length == changes.length then "approved"
      else "partially_approved"
    some ⟨out.1, out.2.2, status⟩

/-- The persisted analysis row fields touched by this subsystem; time is an
abstract instant. -/
structure AnalysisRecord where
  proposed_changes : List Proposal
  status : String
  processed_at : Option Int
  deriving DecidableEq, Repr

/-- The full approval endpoint on one analysis row: run the batch, then
`UPDATE meeting_analyses SET status = ?, processed_at = ?` with the computed
status and the batch finish time `now`. -/
def approveEndpoint (env : Env) (projectKey : String) (hs : HierarchyStructure)
    (a : AnalysisRecord) (req : ApprovalRequest) (now : Int) :
    Option (ApproveOutcome × AnalysisRecord) :=
  (approveProposals env projectKey hs a.proposed_changes req).map
    (fun out => (out, { a with status := out.status, processed_at := some now }))

/-- `delete_analysis`: `UPDATE meeting_analyses SET status = 'rejected'`;
`processed_at` is not part of the update. -/
def rejectEndpoint (a : AnalysisRecord) : AnalysisRecord :=
  { a with status := "rejected" }

/-! ## Specification-side definitions

Definitions written from the specification's words (not from the source),
used to compare claimed behaviour with the embedded code, and Boolean
checkers expressing claims so that they can be evaluated on concrete
inputs. -/

/-- Spec wording of claim C2 for the in-bucket search: an exact
case-insensitive trimmed match anywhere in the bucket wins immediately;
otherwise the first candidate in bucket order whose token-set similarity
reaches 0.70 is returned. -/
def bucketSearchSpecC2 (ps : String) (bucket : List TicketInfo) : Option String :=
  match bucket.find? (fun e => normTitle e.summary == normTitle ps) with
  | some e => some e.key
  | none =>
    (bucket.find? (fun e => similarityReached (normTitle ps) (normTitle e.summary))).map
      (fun e => e.key)

/-- Spec wording of claim C2 for the whole cache-miss search: the bucket one
hierarchy level above the proposed type, searched per `bucketSearchSpecC2`. -/
def structureSearchSpecC2 (itl : String) (ps : String) (hs : HierarchyStructure) : Option String :=
  if itl == "story" then bucketSearchSpecC2 ps hs.epics
  else if itl == "task" then bucketSearchSpecC2 ps hs.stories
  else if isSubtaskTL itl then bucketSearchSpecC2 ps hs.tasks
  else none

/-- The amended description of the code's cache-miss search: a story query
takes the first epic that matches exactly or reaches the similarity
threshold (a single interleaved pass); task and subtask queries use exact
normalised matching only, on stories resp. tasks. -/
def structureSearchAmended (itl : String) (ps : String) (hs : HierarchyStructure) : Option String :=
  if itl == "story" then
    (hs.epics.find? (fun e =>
      normTitle e.summary == normTitle ps
        || similarityReached (normTitle ps) (normTitle e.summary))).map (fun e => e.key)
  else if itl == "task" then
    (hs.stories.find? (fun e => normTitle e.summary == normTitle ps)).map (fun e => e.key)
  else if isSubtaskTL itl then
    (hs.tasks.find? (fun e => normTitle e.summary == normTitle ps)).map (fun e => e.key)
  else none

/-- Spec wording of claim C4 for the batch-cache lookup: exact
case-insensitive, whitespace-trimmed title match. -/
def lookupCreatedSpecC4 (created : List (String × String)) (s : String) : Option String :=
  (created.find? (fun kv => normTitle kv.1 == normTitle s)).map (fun kv => kv.2)

/-- Claim C4's version of the parent resolver: identical to `resolveParent`
except that the batch cache is consulted with the case-insensitive trimmed
match the claim describes. -/
def resolveParentSpecC4 (itl : String) (parentSummary : Option String)
    (created : List (String × String)) (hs : HierarchyStructure) : Option String :=
  match parentSummary with
  | none => none
  | some ps =>
    if ps == "" then none
    else
      match lookupCreatedSpecC4 created ps with
      | some k => some k
      | none =>
        if itl == "story" then findMatchingEpic ps hs.epics
        else if itl == "task" then findByExactSummary (normTitle ps) hs.stories
        else if isSubtaskTL itl then findByExactSummary (normTitle ps) hs.tasks
        else none

/-- Claim C1's condition for an analysis to end `"approved"`: every proposal
index was included in the approved set and no item failed.  The checker is
`true` when the computed status agrees with that condition. -/
def c1StatusClaimHolds (changes : List Proposal) (req : ApprovalRequest)
    (out : ApproveOutcome) : Bool :=
  (out.status == "approved") ==
    ((List.range changes.length).all (fun i => req.approved_indices.contains (Int.ofNat i))
      && out.results.all (fun r => r.success))

/-- Claim C5's condition on the response: exactly one per-item result for
every requested approved index. -/
def c5ClaimHolds (req : ApprovalRequest) (out : ApproveOutcome) : Bool :=
  req.approved_indices.all
    (fun i => (out.results.filter (fun r => r.index == i)).length == 1)

/-- Which proposals contribute a result entry in the item loop: `create`
always does (hard failure included), `modify` only with a truthy ticket key,
`reuse_existing` always; anything else falls through every branch. -/
def producesResult (p : Proposal) : Bool :=
  p.action == "create" || (p.action == "modify" && optStrTruthy p.ticket_key)
    || p.action == "reuse_existing"

/-- The buckets of claim C7's token-based classification. -/
inductive SpecBucketC7 where
  | epic | story | task | subtask | bug | orphan
  deriving DecidableEq, Repr

/-- Spec wording of claim C7: case-insensitive multi-language token match on
the issue-type name, subtask tokens first, then epic, story, task and bug
tokens; unmatched tickets are orphans. -/
def classifySpecC7 (issueTypeName : String) : SpecBucketC7 :=
  let nl := strLower issueTypeName
  if pyIn "sub" nl || pyIn "sotto" nl then .subtask
  else if pyIn "epic" nl then .epic
  else if pyIn "story" nl || pyIn "storia" nl then .story
  else if pyIn "task" nl || pyIn "attività" nl then .task
  else if pyIn "bug" nl || pyIn "difetto" nl then .bug
  else .orphan

/-- Claim C8's linking rule: every recorded child sits in the bucket exactly
one level below its parent's bucket. -/
def c8ClaimHolds (hs : HierarchyStructure) : Bool :=
  hs.epics.all (fun e => e.children.all (fun c => hasKey hs.stories c))
    && hs.stories.all (fun s => s.children.all (fun c => hasKey hs.tasks c))
    && hs.tasks.all (fun t => t.children.all (fun c => hasKey hs.subtasks c))

/-- Claim C6's condition: every issue type whose subtask flag is set or
whose name contains "sub" or "sotto" resolves (after the fix-ups) to
hierarchy level 0.  Record `i` of the resolved array describes raw type `i`. -/
def c6ClaimHolds (raws : List RawIssueType) : Bool :=
  let records := (resolveIssueTypes raws).1
  (List.range raws.length).all (fun i =>
    match raws.get? i, records.get? i with
    | some r, some rec =>
      if r.subtask || pyIn "sub" (strLower r.name) || pyIn "sotto" (strLower r.name) then
        rec.hierarchy_level == 0
      else true
    | _, _ => true)

/-! ### Link-target functions (used to state the amended claim C8)

`targetIn bucket x` is the parent key `x` links to when its parent is
searched directly in `bucket`; `targetInFallback first second x` is the
parent key `x` links to in `second` after a failed membership test on
`first`.  Both depend on the buckets only through their key sets. -/

/-- Direct link target: a truthy parent key present in the bucket. -/
def targetIn (bucket : List TicketInfo) (x : TicketInfo) : Option String :=
  match x.parent_key with
  | some pk => if pk != "" && hasKey bucket pk then some pk else none
  | none => none

/-- Fallback link target: a truthy parent key absent from `first` but
present in `second`. -/
def targetInFallback (first second : List TicketInfo) (x : TicketInfo) : Option String :=
  match x.parent_key with
  | some pk => if pk != "" && !hasKey first pk && hasKey second pk then some pk else none
  | none => none

/-- Fold appending each element's key to the bucket entry its target names. -/
def appendFold (tgt : TicketInfo → Option String) (xs : List TicketInfo)
    (bucket : List TicketInfo) : List TicketInfo :=
  xs.foldl (fun b x =>
    match tgt x with
    | some k => appendChild b k x.key
    | none => b) bucket

/-! ### Concrete inputs used by counterexamples and witnesses -/

/-- An environment whose gateway refuses every call. -/
def envW : Env := ⟨fun _ => none, fun _ => false⟩

/-- An environment that assigns key `NEW-1` to every create call. -/
def envOk : Env := ⟨fun _ => some "NEW-1", fun _ => true⟩

/-- A `create` Subtask proposal whose parent title matches nothing. -/
def subPropW : Proposal :=
  ⟨"create", none, "Subtask", "Sub A", "d", none, none, some "No Such Task", none, "r"⟩

/-- A `create` Story proposal with an unresolvable parent title. -/
def storyPropW : Proposal :=
  ⟨"create", none, "Story", "Story A", "d", none, none, some "No Such Epic", none, "r"⟩

/-- A `modify` proposal without a ticket key. -/
def modifyNoKeyW : Proposal :=
  ⟨"modify", none, "Task", "Task A", "d", none, none, none, none, "r"⟩

/-- An existing story whose title is close to, but not exactly,
"implement login api". -/
def storyBucketW : TicketInfo := ⟨"S1", "Implement login api now", "", "", none, []⟩

/-- An epic whose title reaches the similarity threshold against
"a b c" without matching it exactly. -/
def epicFuzzyW : TicketInfo := ⟨"E1", "a b c x", "", "", none, []⟩

/-- An epic whose title is exactly "a b c". -/
def epicExactW : TicketInfo := ⟨"E2", "a b c", "", "", none, []⟩

/-- A raw Epic ticket. -/
def rawEpicW : RawTicket := ⟨"E1", "Epic", "Auth", "", "Open", none⟩

/-- A raw Task ticket whose parent key names the epic directly. -/
def rawTaskW : RawTicket := ⟨"T1", "Task", "Do it", "", "Open", some "E1"⟩

/-- A raw ticket whose issue type is the Italian "Sottotask". -/
def rawSottoW : RawTicket := ⟨"X1", "Sottotask", "thing", "", "Open", none⟩

/-- A project whose issue types are Epic, Story and a flagged Subtask (no
plain Task type). -/
def rawTypesW : List RawIssueType :=
  [⟨"1", "Epic", false⟩, ⟨"2", "Story", false⟩, ⟨"3", "Subtask", true⟩]

/-- A pending analysis row with no proposals. -/
def recW : AnalysisRecord := ⟨[], "pending", none⟩

/-! ## Helper lemmas -/

/-- The exact search loop is `List.find?` on the normalised summary. -/
theorem findByExactSummary_eq_find (q : String) (l : List TicketInfo) :
    findByExactSummary q l
      = (l.find? (fun e => normTitle e.summary == q)).map (fun e => e.key) := by
  induction l with
  | nil => rfl
  | cons e rest ih =>
    by_cases h : normTitle e.summary == q
    · simp [findByExactSummary, List.find?, h]
    · simp only [Bool.not_eq_true] at h
      simp [findByExactSummary, List.find?, h, ih]

/-- The `find_matching_epic` loop is `List.find?` with the interleaved
exact-or-similar predicate. -/
theorem findMatchingEpicLoop_eq_find (q : String) (l : List TicketInfo) :
    findMatchingEpicLoop q l
      = (l.find? (fun e =>
          normTitle e.summary == q || similarityReached q (normTitle e.summary))).map
          (fun e => e.key) := by
  induction l with
  | nil => rfl
  | cons e rest ih =>
    by_cases h1 : normTitle e.summary == q
    · simp [findMatchingEpicLoop, List.find?, h1]
    · simp only [Bool.not_eq_true] at h1
      by_cases h2 : similarityReached q (normTitle e.summary)
      · simp [findMatchingEpicLoop, List.find?, h1, h2]
      · simp only [Bool.not_eq_true] at h2
        simp [findMatchingEpicLoop, List.find?, h1, h2, ih]

/-! ## Claim theorems -/

/-- C10: the `rejected_indices` field of an approval request is never read:
two approval calls on the same analysis row, hierarchy snapshot and gateway
environment that agree on `approved_indices` produce identical outcomes
(results, gateway call trace, stored status and `processed_at`). -/
theorem C10_rejected_indices_no_effect (env : Env) (pk : String)
    (hs : HierarchyStructure) (a : AnalysisRecord) (req1 req2 : ApprovalRequest)
    (now : Int) (h : req1.approved_indices = req2.approved_indices) :
    approveEndpoint env pk hs a req1 now = approveEndpoint env pk hs a req2 now := by
  cases req1 with
  | mk a1 r1 =>
    cases req2 with
    | mk a2 r2 =>
      simp only at h
      subst h
      rfl

/-- Witness for C10 at a concrete pair of requests differing only in
`rejected_indices`. -/
theorem C10_witness :
    approveEndpoint envW "PX" emptyStructure recW ⟨[0], []⟩ 0
      = approveEndpoint envW "PX" emptyStructure recW ⟨[0], [1, 2]⟩ 0 :=
  C10_rejected_indices_no_effect envW "PX" emptyStructure recW ⟨[0], []⟩ ⟨[0], [1, 2]⟩ 0 rfl

/-- C9 counterexample: `processed_at` is not write-once.  A first approval
stamps it with time 0, a second approval of the same analysis overwrites it
with time 1, and a rejection of a fresh analysis leaves it `none` (the
rejection `UPDATE` does not touch `processed_at`). -/
theorem C9_counterexample :
    (approveEndpoint envW "PX" emptyStructure recW ⟨[], []⟩ 0).map
        (fun pr => pr.2.processed_at) = some (some 0)
    ∧ ((approveEndpoint envW "PX" emptyStructure recW ⟨[], []⟩ 0).bind
        (fun pr => approveEndpoint envW "PX" emptyStructure pr.2 ⟨[], []⟩ 1)).map
        (fun pr => pr.2.processed_at) = some (some 1)
    ∧ (rejectEndpoint recW).processed_at = none
    ∧ (rejectEndpoint recW).status = "rejected" :=
  ⟨rfl, rfl, rfl, rfl⟩

/-- C9 (amended): every approval call sets `processed_at` to that call's
batch finish time, overwriting any earlier value, while rejection updates
only the status and never touches `processed_at`. -/
theorem C9_processed_at_behaviour :
    (∀ (env : Env) (pk : String) (hs : HierarchyStructure) (a : AnalysisRecord)
        (req : ApprovalRequest) (now : Int) (pr : ApproveOutcome × AnalysisRecord),
      approveEndpoint env pk hs a req now = some pr → pr.2.processed_at = some now)
    ∧ (∀ a : AnalysisRecord,
      (rejectEndpoint a).processed_at = a.processed_at
        ∧ (rejectEndpoint a).status = "rejected") := by
  constructor
  · intro env pk hs a req now pr h
    unfold approveEndpoint at h
    cases hsel : approveProposals env pk hs a.proposed_changes req with
    | none => rw [hsel] at h; simp at h
    | some out =>
      rw [hsel] at h
      simp only [Option.map_some', Option.some.injEq] at h
      rw [← h]
  · intro a
    exact ⟨rfl, rfl⟩

/-- Witness for C9 at a concrete approval and rejection. -/
theorem C9_witness :
    (⟨⟨[], [], "approved"⟩, ⟨[], "approved", some 7⟩⟩ :
        ApproveOutcome × AnalysisRecord).2.processed_at = some 7
    ∧ (rejectEndpoint recW).processed_at = recW.processed_at :=
  ⟨C9_processed_at_behaviour.1 envW "PX" emptyStructure recW ⟨[], []⟩ 7
      ⟨⟨[], [], "approved"⟩, ⟨[], "approved", some 7⟩⟩ rfl,
    (C9_processed_at_behaviour.2 recW).1⟩

/-- C4 counterexample: the batch cache is keyed by the raw summary, not by
the claim's case-insensitive trimmed match.  With the cache holding
"Auth Platform" → K1, the claim's resolver finds K1 for the lowercase query
"auth platform", while the code's resolver misses the cache and, the epic
bucket being empty, returns nothing. -/
theorem C4_counterexample :
    resolveParentSpecC4 "story" (some "auth platform") [("Auth Platform", "K1")]
        emptyStructure = some "K1"
    ∧ resolveParent "story" (some "auth platform") [("Auth Platform", "K1")]
        emptyStructure = none :=
  ⟨rfl, rfl⟩

/-- C4 (amended): the batch cache is always consulted first, with an exact
case-sensitive untrimmed title match; on a cache hit the cached key is
returned no matter what the hierarchy snapshot contains. -/
theorem C4_cache_first (itl ps : String) (created : List (String × String))
    (hs : HierarchyStructure) (k : String) (hps : ps ≠ "")
    (h : lookupCreated created ps = some k) :
    resolveParent itl (some ps) created hs = some k := by
  have hb : (ps == "") = false := by
    simpa using hps
  simp [resolveParent, hb, h]

/-- Witness for C4: a cache hit on the raw summary wins over any structure. -/
theorem C4_witness :
    resolveParent "story" (some "Auth Platform") [("Auth Platform", "K1")]
      ⟨[epicExactW], [], [], [], []⟩ = some "K1" :=
  C4_cache_first "story" "Auth Platform" [("Auth Platform", "K1")]
    ⟨[epicExactW], [], [], [], []⟩ "K1" (by decide) rfl

/-- C1 counterexample: status ignores per-item failures.  Approving the only
proposal (an unresolvable Subtask) produces a failed item result, yet the
status becomes `"approved"` because the approved-index count equals the
proposal count. -/
theorem C1_counterexample :
    (approveProposals envW "PX" emptyStructure [subPropW] ⟨[0], []⟩).map
        (fun out => c1StatusClaimHolds [subPropW] ⟨[0], []⟩ out) = some false
    ∧ (approveProposals envW "PX" emptyStructure [subPropW] ⟨[0], []⟩).map
        (fun out => out.results.all (fun r => r.success)) = some false
    ∧ (approveProposals envW "PX" emptyStructure [subPropW] ⟨[0], []⟩).map
        (fun out => out.status) = some "approved" :=
  ⟨rfl, rfl, rfl⟩

/-- C1 (amended): after all items are processed the status is `"approved"`
exactly when the number of entries of `approved_indices` equals the number
of proposals of the analysis; which indices occur, and whether any item
failed, play no role. -/
theorem C1_status_is_count_equality (env : Env) (pk : String)
    (hs : HierarchyStructure) (changes : List Proposal) (req : ApprovalRequest)
    (out : ApproveOutcome) (h : approveProposals env pk hs changes req = some out) :
    out.status = "approved" ↔ req.approved_indices.length = changes.length := by
  unfold approveProposals at h
  cases hsel : selectApproved req.approved_indices changes with
  | none => rw [hsel] at h; simp at h
  | some sel =>
    rw [hsel] at h
    simp only [Option.some.injEq] at h
    by_cases hlen : req.approved_indices.length = changes.length
    · have : (req.approved_indices.length == changes.length) = true := by
        simpa using hlen
      rw [← h]
      simp [this, hlen]
    · have : (req.approved_indices.length == changes.length) = false := by
        simpa using hlen
      rw [← h]
      simp [this, hlen]

/-- Witness for C1 at a concrete approval call. -/
theorem C1_witness :
    ((⟨[ItemResult.createFailedHierarchy 0 subtaskParentError], [], "approved"⟩ :
        ApproveOutcome).status = "approved")
      ↔ ([(0 : Int)].length = [subPropW].length) :=
  C1_status_is_count_equality envW "PX" emptyStructure [subPropW] ⟨[0], []⟩
    ⟨[ItemResult.createFailedHierarchy 0 subtaskParentError], [], "approved"⟩ rfl

/-- C2 counterexample: the claimed uniform exact-then-fuzzy bucket search
diverges from the code twice over.  (a) For a Task, the claim's resolver
accepts a story at similarity 3/4 ≥ 0.70, while the code's Task → Story
search is exact-only and returns nothing.  (b) For a Story, the claim makes
an exact match anywhere in the bucket win over fuzzy matches, while the
code's single pass returns an earlier fuzzy candidate before a later exact
one. -/
theorem C2_counterexample :
    structureSearchSpecC2 "task" "implement login api"
        { emptyStructure with stories := [storyBucketW] } = some "S1"
    ∧ resolveParent "task" (some "implement login api") []
        { emptyStructure with stories := [storyBucketW] } = none
    ∧ structureSearchSpecC2 "story" "a b c"
        { emptyStructure with epics := [epicFuzzyW, epicExactW] } = some "E2"
    ∧ resolveParent "story" (some "a b c") []
        { emptyStructure with epics := [epicFuzzyW, epicExactW] } = some "E1" :=
  ⟨rfl, rfl, rfl, rfl⟩

/-- C2 (amended): on a batch-cache miss the resolver searches only the
bucket one hierarchy level above the proposed type (story⇒epics,
task⇒stories, subtask⇒tasks); the epics search takes the first candidate in
bucket order that matches exactly *or* reaches token-set similarity 0.70
(one interleaved pass), while the task and subtask searches accept only an
exact case-insensitive trimmed match; no candidate ⇒ none. -/
theorem C2_search_matches_amended_description (itl ps : String)
    (created : List (String × String)) (hs : HierarchyStructure)
    (hps : ps ≠ "") (hmiss : lookupCreated created ps = none) :
    resolveParent itl (some ps) created hs = structureSearchAmended itl ps hs := by
  have hb : (ps == "") = false := by
    simpa using hps
  by_cases h1 : itl == "story"
  · simp [resolveParent, structureSearchAmended, hb, hmiss, h1, findMatchingEpic,
      findMatchingEpicLoop_eq_find]
  · simp only [Bool.not_eq_true] at h1
    by_cases h2 : itl == "task"
    · simp [resolveParent, structureSearchAmended, hb, hmiss, h1, h2,
        findByExactSummary_eq_find]
    · simp only [Bool.not_eq_true] at h2
      by_cases h3 : isSubtaskTL itl
      · simp [resolveParent, structureSearchAmended, hb, hmiss, h1, h2, h3,
          findByExactSummary_eq_find]
      · simp only [Bool.not_eq_true] at h3
        simp [resolveParent, structureSearchAmended, hb, hmiss, h1, h2, h3]

/-- Witness for C2 on a concrete cache-miss resolution. -/
theorem C2_witness :
    resolveParent "story" (some "a b c") []
        { emptyStructure with epics := [epicFuzzyW, epicExactW] }
      = structureSearchAmended "story" "a b c"
        { emptyStructure with epics := [epicFuzzyW, epicExactW] } :=
  C2_search_matches_amended_description "story" "a b c" []
    { emptyStructure with epics := [epicFuzzyW, epicExactW] } (by decide) rfl

/-- Exactly one result entry, carrying the item's index, is recorded per
processed item whose proposal is a `create`, a `modify` with a truthy ticket
key, or a `reuse_existing`; other proposals contribute no entry. -/
theorem processItems_results_indices (env : Env) (pk : String)
    (hs : HierarchyStructure) :
    ∀ (items : List (Int × Proposal)) (created : List (String × String))
      (calls : List GatewayCall),
    (processItems env pk hs items created calls).1.map ItemResult.index
      = (items.filter (fun ip => producesResult ip.2)).map (fun ip => ip.1) := by
  intro items
  induction items with
  | nil => intro created calls; rfl
  | cons ip rest ih =>
    intro created calls
    obtain ⟨idx, p⟩ := ip
    by_cases hc : (p.action == "create") = true
    · by_cases hf : ((resolveParent (strLower p.issue_type) p.parent_summary created hs).isNone
          && isSubtaskTL (strLower p.issue_type)) = true
      · simp [processItems, producesResult, hc, hf, ih, ItemResult.index]
      · simp [processItems, producesResult, hc, hf, ih, ItemResult.index]
    · by_cases hm : (p.action == "modify" && optStrTruthy p.ticket_key) = true
      · simp [processItems, producesResult, hc, hm, ih, ItemResult.index]
      · by_cases hr : (p.action == "reuse_existing") = true
        · simp [processItems, producesResult, hc, hm, hr, ih, ItemResult.index]
        · simp [processItems, producesResult, hc, hm, hr, ih]

/-- C5 counterexample: the response does not contain a result for every
requested index.  Requesting the out-of-range index 5 on a one-proposal
analysis succeeds, but the results list is empty, so index 5 has no result;
likewise a requested in-range `modify` proposal without a ticket key
produces no result entry. -/
theorem C5_counterexample :
    (approveProposals envW "PX" emptyStructure [subPropW] ⟨[5], []⟩).map
        (fun out => c5ClaimHolds ⟨[5], []⟩ out) = some false
    ∧ (approveProposals envW "PX" emptyStructure [subPropW] ⟨[5], []⟩).map
        (fun out => out.results) = some []
    ∧ (approveProposals envW "PX" emptyStructure [modifyNoKeyW] ⟨[0], []⟩).map
        (fun out => c5ClaimHolds ⟨[0], []⟩ out) = some false :=
  ⟨rfl, rfl, rfl⟩

/-- C5 (amended): whenever the selection comprehension succeeds (no approved
index below minus the proposal count) the endpoint returns a success
envelope whose results carry exactly one entry per selected, result-producing
item, in execution (hierarchy-sorted) order: `create` items always produce
one entry (per-item failures included), `modify` items only when they carry
a truthy ticket key, `reuse_existing` items always; out-of-range indices are
silently dropped and duplicated indices are processed (and reported) once
per occurrence. -/
theorem C5_one_result_per_executed_item (env : Env) (pk : String)
    (hs : HierarchyStructure) (changes : List Proposal) (req : ApprovalRequest)
    (sel : List (Int × Proposal)) (out : ApproveOutcome)
    (h1 : selectApproved req.approved_indices changes = some sel)
    (h2 : approveProposals env pk hs changes req = some out) :
    out.results.map ItemResult.index
      = ((sortByRank sel).filter (fun ip => producesResult ip.2)).map (fun ip => ip.1) := by
  unfold approveProposals at h2
  rw [h1] at h2
  simp only [Option.some.injEq] at h2
  rw [← h2]
  exact processItems_results_indices env pk hs (sortByRank sel) [] []

/-- Witness for C5 on a two-item batch: the keyless `modify` at index 0
yields no entry, the failing Subtask `create` at index 1 yields one. -/
theorem C5_witness :
    (⟨[ItemResult.createFailedHierarchy 1 subtaskParentError], [], "approved"⟩ :
        ApproveOutcome).results.map ItemResult.index
      = ((sortByRank [((0 : Int), modifyNoKeyW), ((1 : Int), subPropW)]).filter
          (fun ip => producesResult ip.2)).map (fun ip => ip.1) :=
  C5_one_result_per_executed_item envW "PX" emptyStructure [modifyNoKeyW, subPropW]
    ⟨[0, 1], []⟩ [((0 : Int), modifyNoKeyW), ((1 : Int), subPropW)]
    ⟨[ItemResult.createFailedHierarchy 1 subtaskParentError], [], "approved"⟩ rfl rfl

/-- The gateway call history only ever grows: the final trace extends the
trace passed in. -/
theorem processItems_calls_extend (env : Env) (pk : String)
    (hs : HierarchyStructure) :
    ∀ (items : List (Int × Proposal)) (created : List (String × String))
      (calls : List GatewayCall),
    ∃ t, (processItems env pk hs items created calls).2.2 = calls ++ t := by
  intro items
  induction items with
  | nil => intro created calls; exact ⟨[], by simp [processItems]⟩
  | cons ip rest ih =>
    intro created calls
    obtain ⟨idx, p⟩ := ip
    by_cases hc : (p.action == "create") = true
    · by_cases hf : ((resolveParent (strLower p.issue_type) p.parent_summary created hs).isNone
          && isSubtaskTL (strLower p.issue_type)) = true
      · obtain ⟨t, ht⟩ := ih created calls
        exact ⟨t, by simp [processItems, hc, hf, ht]⟩
      · obtain ⟨t, ht⟩ := ih
          (match env.createResp (calls ++ [GatewayCall.create
            ⟨pk, p.issue_type, p.summary, p.description,
              resolveParent (strLower p.issue_type) p.parent_summary created hs,
              p.story_points, p.priority⟩]) with
            | some k => (p.summary, k) :: created
            | none => created)
          (calls ++ [GatewayCall.create
            ⟨pk, p.issue_type, p.summary, p.description,
              resolveParent (strLower p.issue_type) p.parent_summary created hs,
              p.story_points, p.priority⟩])
        refine ⟨GatewayCall.create
            ⟨pk, p.issue_type, p.summary, p.description,
              resolveParent (strLower p.issue_type) p.parent_summary created hs,
              p.story_points, p.priority⟩ :: t, ?_⟩
        simp only [processItems, hc, if_true, hf, Bool.false_eq_true, if_false]
        rw [ht]
        simp
    · by_cases hm : (p.action == "modify" && optStrTruthy p.ticket_key) = true
      · obtain ⟨t, ht⟩ := ih created
          (calls ++ [GatewayCall.update ((p.ticket_key).getD "") p.summary p.description])
        refine ⟨GatewayCall.update ((p.ticket_key).getD "") p.summary p.description :: t, ?_⟩
        simp only [processItems, hc, Bool.false_eq_true, if_false, hm, if_true]
        rw [ht]
        simp
      · by_cases hr : (p.action == "reuse_existing") = true
        · obtain ⟨t, ht⟩ := ih created calls
          exact ⟨t, by simp [processItems, hc, hm, hr, ht]⟩
        · obtain ⟨t, ht⟩ := ih created calls
          exact ⟨t, by simp [processItems, hc, hm, hr, ht]⟩

/-- C3: when parent resolution returns none for a `create` proposal, (a) a
Subtask records a failed item result and the remaining items are processed
with unchanged cache and call trace (no gateway call is made for it), while
(b) a Story or Task proceeds to a `create_ticket` gateway call with no
parent key. -/
theorem C3_none_parent_policy :
    (∀ (env : Env) (pk : String) (hs : HierarchyStructure) (idx : Int)
        (p : Proposal) (rest : List (Int × Proposal))
        (created : List (String × String)) (calls : List GatewayCall),
      p.action = "create" →
      isSubtaskTL (strLower p.issue_type) = true →
      resolveParent (strLower p.issue_type) p.parent_summary created hs = none →
      processItems env pk hs ((idx, p) :: rest) created calls
        = (ItemResult.createFailedHierarchy idx subtaskParentError ::
            (processItems env pk hs rest created calls).1,
           (processItems env pk hs rest created calls).2))
    ∧ (∀ (env : Env) (pk : String) (hs : HierarchyStructure) (idx : Int)
        (p : Proposal) (rest : List (Int × Proposal))
        (created : List (String × String)) (calls : List GatewayCall),
      p.action = "create" →
      (strLower p.issue_type = "story" ∨ strLower p.issue_type = "task") →
      resolveParent (strLower p.issue_type) p.parent_summary created hs = none →
      ∃ t, (processItems env pk hs ((idx, p) :: rest) created calls).2.2
        = calls ++ GatewayCall.create
            ⟨pk, p.issue_type, p.summary, p.description, none,
              p.story_points, p.priority⟩ :: t) := by
  constructor
  · intro env pk hs idx p rest created calls ha hsub hres
    have hc : (p.action == "create") = true := by simpa using ha
    simp [processItems, hc, hres, hsub]
  · intro env pk hs idx p rest created calls ha hst hres
    have hc : (p.action == "create") = true := by simpa using ha
    have hsub : isSubtaskTL (strLower p.issue_type) = false := by
      rcases hst with h | h <;> rw [h] <;> decide
    obtain ⟨t, ht⟩ := processItems_calls_extend env pk hs rest
      (match env.createResp (calls ++ [GatewayCall.create
        ⟨pk, p.issue_type, p.summary, p.description, none,
          p.story_points, p.priority⟩]) with
        | some k => (p.summary, k) :: created
        | none => created)
      (calls ++ [GatewayCall.create
        ⟨pk, p.issue_type, p.summary, p.description, none,
          p.story_points, p.priority⟩])
    refine ⟨t, ?_⟩
    simp only [processItems, hc, if_true, hres, hsub, Option.isNone_none,
      Bool.and_false, Bool.false_eq_true, if_false]
    rw [ht]
    simp

/-- Witness for C3: a concrete unresolvable Subtask fails and a concrete
unresolvable Story is created with no parent key. -/
theorem C3_witness :
    (processItems envW "PX" emptyStructure [((0 : Int), subPropW)] [] []
        = (ItemResult.createFailedHierarchy 0 subtaskParentError ::
            (processItems envW "PX" emptyStructure [] [] []).1,
           (processItems envW "PX" emptyStructure [] [] []).2))
    ∧ (∃ t, (processItems envOk "PX" emptyStructure [((0 : Int), storyPropW)] [] []).2.2
        = [] ++ GatewayCall.create
            ⟨"PX", storyPropW.issue_type, storyPropW.summary, storyPropW.description,
              none, storyPropW.story_points, storyPropW.priority⟩ :: t) :=
  ⟨C3_none_parent_policy.1 envW "PX" emptyStructure 0 subPropW [] [] [] rfl
      (by decide) (by decide),
    C3_none_parent_policy.2 envOk "PX" emptyStructure 0 storyPropW [] [] [] rfl
      (Or.inl (by decide)) (by decide)⟩

/-- Reading back the record whose level was just set. -/
theorem get_setLevelAt_self (records : List IssueTypeInfo) (i : Nat) (lvl : Int) :
    (setLevelAt records i lvl).get? i
      = (records.get? i).map (fun r => { r with hierarchy_level := lvl }) := by
  simp [setLevelAt, List.get?_eq_getElem?, List.getElem?_modify_eq, Option.map_eq_map]

/-- C6 counterexample: a project whose issue types are Epic, Story and a
flagged Subtask.  The subtask normalisation sets the Subtask's level to
`min(3, 2) - 1 = 1`, not 0, so a subtask-flagged type ends at a non-zero
level. -/
theorem C6_counterexample :
    c6ClaimHolds rawTypesW = false
    ∧ ((resolveIssueTypes rawTypesW).1.get? 2).map (fun r => r.hierarchy_level)
        = some 1
    ∧ ((resolveIssueTypes rawTypesW).1.get? 2).map (fun r => r.subtask) = some true :=
  ⟨rfl, rfl, rfl⟩

/-- C6 (amended): `_determine_hierarchy_level` does give level 0 to every
issue type whose subtask flag is set or whose name contains "sub" or
"sotto"; but the later fix-up overrides it: when an `epic` or `story` alias
exists and a `subtask` alias points at record `si` (with any `sub-task`
alias agreeing), the final level of record `si` is
`min(levels of referenced non-subtask-flag records) - 1`, computed after the
Story/Task collision fix — which is 0 only when that minimum is 1. -/
theorem C6_subtask_levels :
    (∀ (nl : String) (it : RawIssueType),
      (it.subtask || pyIn "sub" nl || pyIn "sotto" nl) = true →
      determineHierarchyLevel nl it = 0)
    ∧ (∀ (records : List IssueTypeInfo) (m : TypeMap) (si : Nat) (minL : Int),
      (!mapHas m "epic" && !mapHas m "story") = false →
      mapLookup m "subtask" = some si →
      (mapLookup m "sub-task" = none ∨ mapLookup m "sub-task" = some si) →
      minNonSubtaskLevel (storyTaskFix records m) m = some minL →
      ((validateAndFixHierarchy records m).1.get? si)
        = ((storyTaskFix records m).get? si).map
            (fun r => { r with hierarchy_level := minL - 1 })) := by
  constructor
  · intro nl it h
    simp [determineHierarchyLevel, h]
  · intro records m si minL hes hsub hst hmin
    unfold validateAndFixHierarchy
    rw [hes]
    simp only [Bool.false_eq_true, if_false, hsub, hmin]
    rcases hst with h | h
    · rw [h]
      exact get_setLevelAt_self (storyTaskFix records m) si (minL - 1)
    · rw [h]
      rw [get_setLevelAt_self, get_setLevelAt_self]
      cases (storyTaskFix records m).get? si <;> rfl

/-- Witness for C6 on the concrete Epic/Story/Subtask project: the
determination step gives 0, the fix-up formula gives `2 - 1 = 1`. -/
theorem C6_witness :
    determineHierarchyLevel "subtask" ⟨"3", "Subtask", true⟩ = 0
    ∧ ((validateAndFixHierarchy (buildMetadata rawTypesW).1 (buildMetadata rawTypesW).2).1.get? 2)
        = ((storyTaskFix (buildMetadata rawTypesW).1 (buildMetadata rawTypesW).2).get? 2).map
            (fun r => { r with hierarchy_level := (2 : Int) - 1 }) :=
  ⟨C6_subtask_levels.1 "subtask" ⟨"3", "Subtask", true⟩ (by decide),
    C6_subtask_levels.2 (buildMetadata rawTypesW).1 (buildMetadata rawTypesW).2 2 2
      (by decide) (by decide) (Or.inr (by decide)) (by decide)⟩

/-- Dict assignment with a fresh key is an append. -/
theorem dictInsert_fresh (l : List TicketInfo) (info : TicketInfo)
    (h : hasKey l info.key = false) : dictInsert l info = l ++ [info] := by
  unfold dictInsert
  unfold hasKey at h
  rw [h]
  simp

/-- Key membership after appending one record. -/
theorem hasKey_append_singleton (l : List TicketInfo) (info : TicketInfo) (k : String) :
    hasKey (l ++ [info]) k = (hasKey l k || info.key == k) := by
  simp [hasKey, List.any_append]

/-- A key absent from all four dict buckets of a structure. -/
def structFresh (hs : HierarchyStructure) (k : String) : Prop :=
  hasKey hs.epics k = false ∧ hasKey hs.stories k = false
    ∧ hasKey hs.tasks k = false ∧ hasKey hs.subtasks k = false

/-- Classification fold over an accumulator whose buckets avoid the incoming
keys: each bucket receives, appended in input order, exactly the tickets
whose lowercased type name selects it. -/
theorem organize_go (raws : List RawTicket) :
    ∀ hs : HierarchyStructure, (∀ t ∈ raws, structFresh hs t.key) →
    (raws.map (fun t => t.key)).Nodup →
    raws.foldl organizeStep hs =
      { epics := hs.epics
          ++ (raws.filter (fun t => strLower t.issue_type_name == "epic")).map mkTicketInfo,
        stories := hs.stories
          ++ (raws.filter (fun t => strLower t.issue_type_name == "story")).map mkTicketInfo,
        tasks := hs.tasks
          ++ (raws.filter (fun t => strLower t.issue_type_name == "task")).map mkTicketInfo,
        subtasks := hs.subtasks
          ++ (raws.filter (fun t => strLower t.issue_type_name == "subtask"
              || strLower t.issue_type_name == "sub-task")).map mkTicketInfo,
        orphaned := hs.orphaned
          ++ (raws.filter (fun t => !(strLower t.issue_type_name == "epic")
              && !(strLower t.issue_type_name == "story")
              && !(strLower t.issue_type_name == "task")
              && !(strLower t.issue_type_name == "subtask"
                  || strLower t.issue_type_name == "sub-task"))).map mkTicketInfo } := by
  induction raws with
  | nil => intro hs _ _; simp
  | cons t rest ih =>
    intro hs hfresh hnd
    have hft : structFresh hs t.key := hfresh t (List.mem_cons_self t rest)
    have hnd' : (rest.map (fun t => t.key)).Nodup := by
      simpa using hnd.of_cons
    have hkt : t.key ∉ rest.map (fun t => t.key) := by
      have := hnd
      simp only [List.map_cons, List.nodup_cons] at this
      exact this.1
    simp only [List.foldl_cons]
    by_cases h1 : (strLower t.issue_type_name == "epic") = true
    · have hstep : organizeStep hs t
          = { hs with epics := hs.epics ++ [mkTicketInfo t] } := by
        simp [organizeStep, h1, dictInsert_fresh hs.epics (mkTicketInfo t) hft.1]
      rw [hstep]
      rw [ih _ ?fresh ?nd]
      case nd => exact hnd'
      case fresh =>
        intro u hu
        have hfu := hfresh u (List.mem_cons_of_mem t hu)
        have hne : (t.key == u.key) = false := by
          have : u.key ≠ t.key := by
            intro he
            exact hkt (by rw [← he]; exact List.mem_map_of_mem (fun t => t.key) hu)
          simp [mkTicketInfo]
          exact fun hc => this hc.symm
        refine ⟨?_, hfu.2.1, hfu.2.2.1, hfu.2.2.2⟩
        rw [hasKey_append_singleton, hfu.1]
        simpa [mkTicketInfo] using hne
      have he : strLower t.issue_type_name = "epic" := by simpa using h1
      simp [List.filter_cons, he, List.append_assoc]
    · by_cases h2 : (strLower t.issue_type_name == "story") = true
      · have hstep : organizeStep hs t
            = { hs with stories := hs.stories ++ [mkTicketInfo t] } := by
          simp [organizeStep, h1, h2, dictInsert_fresh hs.stories (mkTicketInfo t) hft.2.1]
        rw [hstep]
        rw [ih _ ?fresh ?nd]
        case nd => exact hnd'
        case fresh =>
          intro u hu
          have hfu := hfresh u (List.mem_cons_of_mem t hu)
          have hne : (t.key == u.key) = false := by
            have : u.key ≠ t.key := by
              intro he
              exact hkt (by rw [← he]; exact List.mem_map_of_mem (fun t => t.key) hu)
            simp [mkTicketInfo]
            exact fun hc => this hc.symm
          refine ⟨hfu.1, ?_, hfu.2.2.1, hfu.2.2.2⟩
          rw [hasKey_append_singleton, hfu.2.1]
          simpa [mkTicketInfo] using hne
        have he : strLower t.issue_type_name = "story" := by simpa using h2
        simp [List.filter_cons, he, List.append_assoc]
      · by_cases h3 : (strLower t.issue_type_name == "task") = true
        · have hstep : organizeStep hs t
              = { hs with tasks := hs.tasks ++ [mkTicketInfo t] } := by
            simp [organizeStep, h1, h2, h3, dictInsert_fresh hs.tasks (mkTicketInfo t) hft.2.2.1]
          rw [hstep]
          rw [ih _ ?fresh ?nd]
          case nd => exact hnd'
          case fresh =>
            intro u hu
            have hfu := hfresh u (List.mem_cons_of_mem t hu)
            have hne : (t.key == u.key) = false := by
              have : u.key ≠ t.key := by
                intro he
                exact hkt (by rw [← he]; exact List.mem_map_of_mem (fun t => t.key) hu)
              simp [mkTicketInfo]
              exact fun hc => this hc.symm
            refine ⟨hfu.1, hfu.2.1, ?_, hfu.2.2.2⟩
            rw [hasKey_append_singleton, hfu.2.2.1]
            simpa [mkTicketInfo] using hne
          have he : strLower t.issue_type_name = "task" := by simpa using h3
          simp [List.filter_cons, he, List.append_assoc]
        · by_cases h4 : (strLower t.issue_type_name == "subtask"
              || strLower t.issue_type_name == "sub-task") = true
          · have hstep : organizeStep hs t
                = { hs with subtasks := hs.subtasks ++ [mkTicketInfo t] } := by
              rcases Bool.or_eq_true_iff.mp h4 with h4a | h4b
              · simp [organizeStep, h1, h2, h3, h4a,
                  dictInsert_fresh hs.subtasks (mkTicketInfo t) hft.2.2.2]
              · simp [organizeStep, h1, h2, h3, h4b,
                  dictInsert_fresh hs.subtasks (mkTicketInfo t) hft.2.2.2]
            rw [hstep]
            rw [ih _ ?fresh ?nd]
            case nd => exact hnd'
            case fresh =>
              intro u hu
              have hfu := hfresh u (List.mem_cons_of_mem t hu)
              have hne : (t.key == u.key) = false := by
                have : u.key ≠ t.key := by
                  intro he
                  exact hkt (by rw [← he]; exact List.mem_map_of_mem (fun t => t.key) hu)
                simp [mkTicketInfo]
                exact fun hc => this hc.symm
              refine ⟨hfu.1, hfu.2.1, hfu.2.2.1, ?_⟩
              rw [hasKey_append_singleton, hfu.2.2.2]
              simpa [mkTicketInfo] using hne
            rcases Bool.or_eq_true_iff.mp h4 with h4x | h4x
            · have he : strLower t.issue_type_name = "subtask" := by simpa using h4x
              simp [List.filter_cons, he, List.append_assoc]
            · have he : strLower t.issue_type_name = "sub-task" := by simpa using h4x
              simp [List.filter_cons, he, List.append_assoc]
          · have hstep : organizeStep hs t
                = { hs with orphaned := hs.orphaned ++ [mkTicketInfo t] } := by
              have h4a : (strLower t.issue_type_name == "subtask") = false := by
                revert h4; cases strLower t.issue_type_name == "subtask" <;> simp
              have h4b : (strLower t.issue_type_name == "sub-task") = false := by
                revert h4; cases strLower t.issue_type_name == "sub-task" <;> simp
              simp [organizeStep, h1, h2, h3, h4a, h4b]
            rw [hstep]
            rw [ih _ ?fresh ?nd]
            case nd => exact hnd'
            case fresh =>
              intro u hu
              exact hfresh u (List.mem_cons_of_mem t hu)
            simp only [Bool.not_eq_true] at h1 h2 h3 h4
            simp only [Bool.or_eq_false_iff] at h4
            simp [List.filter_cons, h1, h2, h3, h4.1, h4.2, List.append_assoc]

/-- C7 counterexample: a ticket whose issue type is "Sottotask".  The
claim's token classifier puts it in the subtask bucket ("sotto" token),
while the actual builder, matching the lowercased name only against five
exact strings, sends it to the orphan bucket. -/
theorem C7_counterexample :
    classifySpecC7 "Sottotask" = SpecBucketC7.subtask
    ∧ (getHierarchicalStructure [rawSottoW]).subtasks = []
    ∧ (getHierarchicalStructure [rawSottoW]).orphaned.map (fun t => t.key) = ["X1"] :=
  ⟨rfl, rfl, rfl⟩

/-- C7 (amended): the builder classifies every ticket by *exact* equality of
the lowercased issue-type name — "epic", "story", "task", "subtask" or
"sub-task" — with no token matching, no "sotto" handling and no bug bucket;
every other ticket (bugs included) lands in the orphan bucket. -/
theorem C7_classification (raws : List RawTicket)
    (hnd : (raws.map (fun t => t.key)).Nodup) :
    organizeTickets raws =
      { epics := (raws.filter (fun t => strLower t.issue_type_name == "epic")).map mkTicketInfo,
        stories := (raws.filter (fun t => strLower t.issue_type_name == "story")).map mkTicketInfo,
        tasks := (raws.filter (fun t => strLower t.issue_type_name == "task")).map mkTicketInfo,
        subtasks := (raws.filter (fun t => strLower t.issue_type_name == "subtask"
            || strLower t.issue_type_name == "sub-task")).map mkTicketInfo,
        orphaned := (raws.filter (fun t => !(strLower t.issue_type_name == "epic")
            && !(strLower t.issue_type_name == "story")
            && !(strLower t.issue_type_name == "task")
            && !(strLower t.issue_type_name == "subtask"
                || strLower t.issue_type_name == "sub-task"))).map mkTicketInfo } := by
  have h := organize_go raws emptyStructure
    (fun t _ => ⟨rfl, rfl, rfl, rfl⟩) hnd
  simpa [organizeTickets, emptyStructure] using h

/-- Witness for C7 on a concrete mixed ticket list. -/
theorem C7_witness :
    organizeTickets [rawEpicW, rawSottoW, rawTaskW] =
      { epics := ([rawEpicW, rawSottoW, rawTaskW].filter
            (fun t => strLower t.issue_type_name == "epic")).map mkTicketInfo,
        stories := ([rawEpicW, rawSottoW, rawTaskW].filter
            (fun t => strLower t.issue_type_name == "story")).map mkTicketInfo,
        tasks := ([rawEpicW, rawSottoW, rawTaskW].filter
            (fun t => strLower t.issue_type_name == "task")).map mkTicketInfo,
        subtasks := ([rawEpicW, rawSottoW, rawTaskW].filter
            (fun t => strLower t.issue_type_name == "subtask"
              || strLower t.issue_type_name == "sub-task")).map mkTicketInfo,
        orphaned := ([rawEpicW, rawSottoW, rawTaskW].filter
            (fun t => !(strLower t.issue_type_name == "epic")
              && !(strLower t.issue_type_name == "story")
              && !(strLower t.issue_type_name == "task")
              && !(strLower t.issue_type_name == "subtask"
                  || strLower t.issue_type_name == "sub-task"))).map mkTicketInfo } :=
  C7_classification [rawEpicW, rawSottoW, rawTaskW] (by decide)

/-- Appending a child never changes the key column of a bucket. -/
theorem appendChild_keys (l : List TicketInfo) (pk ck : String) :
    (appendChild l pk ck).map (fun t => t.key) = l.map (fun t => t.key) := by
  unfold appendChild
  rw [List.map_map]
  apply List.map_congr_left
  intro t _
  by_cases h : (t.key == pk) = true
  · simp [Function.comp, h]
  · simp only [Bool.not_eq_true] at h
    simp [Function.comp, h]

/-- Key membership is a predicate on the key column. -/
theorem hasKey_eq_keys_any (l : List TicketInfo) (k : String) :
    hasKey l k = (l.map (fun t => t.key)).any (fun s => s == k) := by
  induction l with
  | nil => rfl
  | cons a l ih =>
    show (a.key == k || hasKey l k)
      = (a.key == k || (l.map (fun t => t.key)).any (fun s => s == k))
    rw [ih]

/-- Appending a child never changes the keys of a bucket. -/
theorem hasKey_appendChild (l : List TicketInfo) (pk ck k : String) :
    hasKey (appendChild l pk ck) k = hasKey l k := by
  rw [hasKey_eq_keys_any, hasKey_eq_keys_any, appendChild_keys]

/-- One step of an `appendFold`. -/
theorem appendFold_cons (tgt : TicketInfo → Option String) (x : TicketInfo)
    (xs bucket : List TicketInfo) :
    appendFold tgt (x :: xs) bucket
      = appendFold tgt xs
          (match tgt x with
            | some k => appendChild bucket k x.key
            | none => bucket) := rfl

/-- An `appendFold` never changes the keys of a bucket. -/
theorem hasKey_appendFold (tgt : TicketInfo → Option String) (xs : List TicketInfo) :
    ∀ (bucket : List TicketInfo) (k : String),
    hasKey (appendFold tgt xs bucket) k = hasKey bucket k := by
  induction xs with
  | nil => intro bucket k; rfl
  | cons x xs ih =>
    intro bucket k
    cases htgt : tgt x with
    | none =>
      rw [appendFold_cons, htgt]
      exact ih bucket k
    | some pk =>
      rw [appendFold_cons, htgt]
      rw [show (match some pk with
          | some k => appendChild bucket k x.key
          | none => bucket) = appendChild bucket pk x.key from rfl]
      rw [ih, hasKey_appendChild]

/-- The direct link target only depends on the bucket's key set. -/
theorem targetIn_congr (b1 b2 : List TicketInfo)
    (h : ∀ k, hasKey b1 k = hasKey b2 k) : targetIn b1 = targetIn b2 := by
  funext x
  cases hp : x.parent_key with
  | none => simp [targetIn, hp]
  | some pk => simp [targetIn, hp, h pk]

/-- The fallback link target only depends on the two buckets' key sets. -/
theorem targetInFallback_congr (f1 f2 s1 s2 : List TicketInfo)
    (hf : ∀ k, hasKey f1 k = hasKey f2 k) (hs : ∀ k, hasKey s1 k = hasKey s2 k) :
    targetInFallback f1 s1 = targetInFallback f2 s2 := by
  funext x
  cases hp : x.parent_key with
  | none => simp [targetInFallback, hp]
  | some pk => simp [targetInFallback, hp, hf pk, hs pk]

/-- Characterisation of an `appendFold`: every bucket entry receives,
appended in fold order, the keys of exactly those elements whose target
names its key. -/
theorem appendFold_eq (tgt : TicketInfo → Option String) (xs : List TicketInfo) :
    ∀ bucket : List TicketInfo,
    appendFold tgt xs bucket
      = bucket.map (fun e => { e with children := e.children
          ++ ((xs.filter (fun x => tgt x == some e.key)).map (fun x => x.key)) }) := by
  induction xs with
  | nil =>
    intro bucket
    simp [appendFold]
  | cons x xs ih =>
    intro bucket
    cases htgt : tgt x with
    | none =>
      rw [show appendFold tgt (x :: xs) bucket = appendFold tgt xs bucket by
        simp [appendFold, htgt]]
      rw [ih]
      apply List.map_congr_left
      intro e _
      simp [List.filter_cons, htgt]
    | some k =>
      rw [show appendFold tgt (x :: xs) bucket
          = appendFold tgt xs (appendChild bucket k x.key) by
        simp [appendFold, htgt]]
      rw [ih]
      unfold appendChild
      rw [List.map_map]
      apply List.map_congr_left
      intro e _
      by_cases he : (e.key == k) = true
      · have hek : e.key = k := by simpa using he
        simp [Function.comp, he, List.filter_cons, htgt, hek, List.append_assoc]
      · simp only [Bool.not_eq_true] at he
        have hek : ¬(some k == some e.key) = true := by
          simp
          intro hc
          rw [hc] at he
          simp at he
        simp only [Bool.not_eq_true] at hek
        simp [Function.comp, he, List.filter_cons, htgt, hek]

/-- Composing two `appendFold`s on the same bucket. -/
theorem appendFold_appendFold (tgt1 tgt2 : TicketInfo → Option String)
    (xs1 xs2 bucket : List TicketInfo) :
    appendFold tgt2 xs2 (appendFold tgt1 xs1 bucket)
      = bucket.map (fun e => { e with children := e.children
          ++ ((xs1.filter (fun x => tgt1 x == some e.key)).map (fun x => x.key))
          ++ ((xs2.filter (fun x => tgt2 x == some e.key)).map (fun x => x.key)) }) := by
  rw [appendFold_eq, appendFold_eq, List.map_map]
  apply List.map_congr_left
  intro e _
  simp [Function.comp, List.append_assoc]

/-- One step of an `appendFold` with a hit target. -/
theorem appendFold_cons_some (tgt : TicketInfo → Option String) (x : TicketInfo)
    (xs bucket : List TicketInfo) (pk : String) (h : tgt x = some pk) :
    appendFold tgt (x :: xs) bucket = appendFold tgt xs (appendChild bucket pk x.key) := by
  simp [appendFold, h]

/-- One step of an `appendFold` with a missed target. -/
theorem appendFold_cons_none (tgt : TicketInfo → Option String) (x : TicketInfo)
    (xs bucket : List TicketInfo) (h : tgt x = none) :
    appendFold tgt (x :: xs) bucket = appendFold tgt xs bucket := by
  simp [appendFold, h]

/-- The story-linking step when its target hits. -/
theorem storyLinkStep_some (acc : HierarchyStructure) (s : TicketInfo) (pk : String)
    (h : targetIn acc.epics s = some pk) :
    storyLinkStep acc s = { acc with epics := appendChild acc.epics pk s.key } := by
  cases hp : s.parent_key with
  | none => simp [targetIn, hp] at h
  | some pk' =>
    by_cases hc : (pk' != "" && hasKey acc.epics pk') = true
    · simp only [targetIn, hp, hc, if_true] at h
      cases h
      simp [storyLinkStep, hp, hc]
    · simp only [Bool.not_eq_true] at hc
      simp [targetIn, hp, hc] at h

/-- The story-linking step when its target misses. -/
theorem storyLinkStep_none (acc : HierarchyStructure) (s : TicketInfo)
    (h : targetIn acc.epics s = none) :
    storyLinkStep acc s = acc := by
  cases hp : s.parent_key with
  | none => simp [storyLinkStep, hp]
  | some pk' =>
    by_cases hc : (pk' != "" && hasKey acc.epics pk') = true
    · simp [targetIn, hp, hc] at h
    · simp only [Bool.not_eq_true] at hc
      simp [storyLinkStep, hp, hc]

/-- The story-linking loop is an `appendFold` on the epics bucket. -/
theorem storyPass_eq (ss : List TicketInfo) :
    ∀ acc : HierarchyStructure,
    ss.foldl storyLinkStep acc
      = { acc with epics := appendFold (targetIn acc.epics) ss acc.epics } := by
  induction ss with
  | nil => intro acc; rfl
  | cons s ss ih =>
    intro acc
    rw [List.foldl_cons]
    cases htgt : targetIn acc.epics s with
    | some pk =>
      rw [storyLinkStep_some acc s pk htgt, ih,
        appendFold_cons_some (targetIn acc.epics) s ss acc.epics pk htgt]
      have hkeys : targetIn (appendChild acc.epics pk s.key) = targetIn acc.epics :=
        targetIn_congr _ _ (fun k => hasKey_appendChild acc.epics pk s.key k)
      rw [hkeys]
    | none =>
      rw [storyLinkStep_none acc s htgt, ih,
        appendFold_cons_none (targetIn acc.epics) s ss acc.epics htgt]

/-- A direct hit rules the fallback out. -/
theorem fallback_none_of_targetIn_some (f s : List TicketInfo) (x : TicketInfo)
    (pk : String) (h : targetIn f x = some pk) : targetInFallback f s x = none := by
  cases hp : x.parent_key with
  | none => simp [targetIn, hp] at h
  | some pk' =>
    by_cases hne : (pk' != "") = true
    · by_cases hf : hasKey f pk' = true
      · simp [targetInFallback, hp, hne, hf]
      · simp only [Bool.not_eq_true] at hf
        simp [targetIn, hp, hne, hf] at h
    · simp only [Bool.not_eq_true] at hne
      simp [targetIn, hp, hne] at h

/-- The task-linking step when the story target hits. -/
theorem taskLinkStep_story (acc : HierarchyStructure) (t : TicketInfo) (pk : String)
    (h : targetIn acc.stories t = some pk) :
    taskLinkStep acc t = { acc with stories := appendChild acc.stories pk t.key } := by
  cases hp : t.parent_key with
  | none => simp [targetIn, hp] at h
  | some pk' =>
    by_cases hne : (pk' != "") = true
    · by_cases hf : hasKey acc.stories pk' = true
      · simp only [targetIn, hp, hne, hf, Bool.and_self, if_true] at h
        cases h
        simp [taskLinkStep, hp, hne, hf]
      · simp only [Bool.not_eq_true] at hf
        simp [targetIn, hp, hne, hf] at h
    · simp only [Bool.not_eq_true] at hne
      simp [targetIn, hp, hne] at h

/-- The task-linking step when the story target misses and the epic fallback
hits. -/
theorem taskLinkStep_epic (acc : HierarchyStructure) (t : TicketInfo) (pk : String)
    (h : targetInFallback acc.stories acc.epics t = some pk) :
    taskLinkStep acc t = { acc with epics := appendChild acc.epics pk t.key } := by
  cases hp : t.parent_key with
  | none => simp [targetInFallback, hp] at h
  | some pk' =>
    by_cases hne : (pk' != "") = true
    · by_cases hf : hasKey acc.stories pk' = true
      · simp [targetInFallback, hp, hne, hf] at h
      · simp only [Bool.not_eq_true] at hf
        by_cases he : hasKey acc.epics pk' = true
        · simp only [targetInFallback, hp, hne, hf, he, Bool.not_false, Bool.and_self,
            Bool.and_true, if_true] at h
          cases h
          simp [taskLinkStep, hp, hne, hf, he]
        · simp only [Bool.not_eq_true] at he
          simp [targetInFallback, hp, hne, hf, he] at h
    · simp only [Bool.not_eq_true] at hne
      simp [targetInFallback, hp, hne] at h

/-- The task-linking step when both targets miss. -/
theorem taskLinkStep_none (acc : HierarchyStructure) (t : TicketInfo)
    (h1 : targetIn acc.stories t = none)
    (h2 : targetInFallback acc.stories acc.epics t = none) :
    taskLinkStep acc t = acc := by
  cases hp : t.parent_key with
  | none => simp [taskLinkStep, hp]
  | some pk' =>
    by_cases hne : (pk' != "") = true
    · by_cases hf : hasKey acc.stories pk' = true
      · simp [targetIn, hp, hne, hf] at h1
      · simp only [Bool.not_eq_true] at hf
        by_cases he : hasKey acc.epics pk' = true
        · simp [targetInFallback, hp, hne, hf, he] at h2
        · simp only [Bool.not_eq_true] at he
          simp [taskLinkStep, hp, hne, hf, he]
    · simp only [Bool.not_eq_true] at hne
      simp [taskLinkStep, hp, hne]

/-- The task-linking loop is an `appendFold` on stories plus one on epics. -/
theorem taskPass_eq (ts : List TicketInfo) :
    ∀ acc : HierarchyStructure,
    ts.foldl taskLinkStep acc
      = { acc with
          stories := appendFold (targetIn acc.stories) ts acc.stories,
          epics := appendFold (targetInFallback acc.stories acc.epics) ts acc.epics } := by
  induction ts with
  | nil => intro acc; rfl
  | cons t ts ih =>
    intro acc
    rw [List.foldl_cons]
    cases htgtS : targetIn acc.stories t with
    | some pk =>
      have htgtE : targetInFallback acc.stories acc.epics t = none :=
        fallback_none_of_targetIn_some acc.stories acc.epics t pk htgtS
      rw [taskLinkStep_story acc t pk htgtS, ih]
      rw [targetIn_congr (appendChild acc.stories pk t.key) acc.stories
        (fun k => hasKey_appendChild acc.stories pk t.key k)]
      rw [targetInFallback_congr (appendChild acc.stories pk t.key) acc.stories
        acc.epics acc.epics
        (fun k => hasKey_appendChild acc.stories pk t.key k) (fun _ => rfl)]
      rw [appendFold_cons_some (targetIn acc.stories) t ts acc.stories pk htgtS]
      rw [appendFold_cons_none (targetInFallback acc.stories acc.epics) t ts acc.epics htgtE]
    | none =>
      cases htgtE : targetInFallback acc.stories acc.epics t with
      | some pk =>
        rw [taskLinkStep_epic acc t pk htgtE, ih]
        rw [targetInFallback_congr acc.stories acc.stories
          (appendChild acc.epics pk t.key) acc.epics
          (fun _ => rfl) (fun k => hasKey_appendChild acc.epics pk t.key k)]
        rw [appendFold_cons_none (targetIn acc.stories) t ts acc.stories htgtS]
        rw [appendFold_cons_some (targetInFallback acc.stories acc.epics) t ts acc.epics pk htgtE]
      | none =>
        rw [taskLinkStep_none acc t htgtS htgtE, ih]
        rw [appendFold_cons_none (targetIn acc.stories) t ts acc.stories htgtS]
        rw [appendFold_cons_none (targetInFallback acc.stories acc.epics) t ts acc.epics htgtE]

/-- The subtask-linking step when the story target hits. -/
theorem subtaskLinkStep_story (acc : HierarchyStructure) (x : TicketInfo) (pk : String)
    (h : targetIn acc.stories x = some pk) :
    subtaskLinkStep acc x = { acc with stories := appendChild acc.stories pk x.key } := by
  cases hp : x.parent_key with
  | none => simp [targetIn, hp] at h
  | some pk' =>
    by_cases hne : (pk' != "") = true
    · by_cases hf : hasKey acc.stories pk' = true
      · simp only [targetIn, hp, hne, hf, Bool.and_self, if_true] at h
        cases h
        simp [subtaskLinkStep, hp, hne, hf]
      · simp only [Bool.not_eq_true] at hf
        simp [targetIn, hp, hne, hf] at h
    · simp only [Bool.not_eq_true] at hne
      simp [targetIn, hp, hne] at h

/-- The subtask-linking step when the story target misses and the task
fallback hits. -/
theorem subtaskLinkStep_task (acc : HierarchyStructure) (x : TicketInfo) (pk : String)
    (h : targetInFallback acc.stories acc.tasks x = some pk) :
    subtaskLinkStep acc x = { acc with tasks := appendChild acc.tasks pk x.key } := by
  cases hp : x.parent_key with
  | none => simp [targetInFallback, hp] at h
  | some pk' =>
    by_cases hne : (pk' != "") = true
    · by_cases hf : hasKey acc.stories pk' = true
      · simp [targetInFallback, hp, hne, hf] at h
      · simp only [Bool.not_eq_true] at hf
        by_cases he : hasKey acc.tasks pk' = true
        · simp only [targetInFallback, hp, hne, hf, he, Bool.not_false, Bool.and_self,
            Bool.and_true, if_true] at h
          cases h
          simp [subtaskLinkStep, hp, hne, hf, he]
        · simp only [Bool.not_eq_true] at he
          simp [targetInFallback, hp, hne, hf, he] at h
    · simp only [Bool.not_eq_true] at hne
      simp [targetInFallback, hp, hne] at h

/-- The subtask-linking step when both targets miss. -/
theorem subtaskLinkStep_none (acc : HierarchyStructure) (x : TicketInfo)
    (h1 : targetIn acc.stories x = none)
    (h2 : targetInFallback acc.stories acc.tasks x = none) :
    subtaskLinkStep acc x = acc := by
  cases hp : x.parent_key with
  | none => simp [subtaskLinkStep, hp]
  | some pk' =>
    by_cases hne : (pk' != "") = true
    · by_cases hf : hasKey acc.stories pk' = true
      · simp [targetIn, hp, hne, hf] at h1
      · simp only [Bool.not_eq_true] at hf
        by_cases he : hasKey acc.tasks pk' = true
        · simp [targetInFallback, hp, hne, hf, he] at h2
        · simp only [Bool.not_eq_true] at he
          simp [subtaskLinkStep, hp, hne, hf, he]
    · simp only [Bool.not_eq_true] at hne
      simp [subtaskLinkStep, hp, hne]

/-- The subtask-linking loop is an `appendFold` on stories plus one on tasks. -/
theorem subtaskPass_eq (xs : List TicketInfo) :
    ∀ acc : HierarchyStructure,
    xs.foldl subtaskLinkStep acc
      = { acc with
          stories := appendFold (targetIn acc.stories) xs acc.stories,
          tasks := appendFold (targetInFallback acc.stories acc.tasks) xs acc.tasks } := by
  induction xs with
  | nil => intro acc; rfl
  | cons x xs ih =>
    intro acc
    rw [List.foldl_cons]
    cases htgtS : targetIn acc.stories x with
    | some pk =>
      have htgtT : targetInFallback acc.stories acc.tasks x = none :=
        fallback_none_of_targetIn_some acc.stories acc.tasks x pk htgtS
      rw [subtaskLinkStep_story acc x pk htgtS, ih]
      rw [targetIn_congr (appendChild acc.stories pk x.key) acc.stories
        (fun k => hasKey_appendChild acc.stories pk x.key k)]
      rw [targetInFallback_congr (appendChild acc.stories pk x.key) acc.stories
        acc.tasks acc.tasks
        (fun k => hasKey_appendChild acc.stories pk x.key k) (fun _ => rfl)]
      rw [appendFold_cons_some (targetIn acc.stories) x xs acc.stories pk htgtS]
      rw [appendFold_cons_none (targetInFallback acc.stories acc.tasks) x xs acc.tasks htgtT]
    | none =>
      cases htgtT : targetInFallback acc.stories acc.tasks x with
      | some pk =>
        rw [subtaskLinkStep_task acc x pk htgtT, ih]
        rw [targetInFallback_congr acc.stories acc.stories
          (appendChild acc.tasks pk x.key) acc.tasks
          (fun _ => rfl) (fun k => hasKey_appendChild acc.tasks pk x.key k)]
        rw [appendFold_cons_none (targetIn acc.stories) x xs acc.stories htgtS]
        rw [appendFold_cons_some (targetInFallback acc.stories acc.tasks) x xs acc.tasks pk htgtT]
      | none =>
        rw [subtaskLinkStep_none acc x htgtS htgtT, ih]
        rw [appendFold_cons_none (targetIn acc.stories) x xs acc.stories htgtS]
        rw [appendFold_cons_none (targetInFallback acc.stories acc.tasks) x xs acc.tasks htgtT]

/-- C8 counterexample: a Task ticket whose `parent` key names an Epic is
linked as that Epic's child, although the epics bucket is two levels above
the task bucket; the claim's "immediately-higher level only" rule is
violated. -/
theorem C8_counterexample :
    c8ClaimHolds (getHierarchicalStructure [rawEpicW, rawTaskW]) = false
    ∧ (getHierarchicalStructure [rawEpicW, rawTaskW]).epics.map (fun e => e.children)
        = [["T1"]] :=
  ⟨rfl, rfl⟩

/-- C8 (amended): the linking pass appends children as follows.  Each epic
receives the stories whose truthy parent key is an epic key, then the tasks
whose truthy parent key is not a story key but is an epic key; each story
receives the tasks and then the subtasks whose truthy parent key is a story
key; each task receives the subtasks whose truthy parent key is neither a
story key nor absent from the task bucket; all other tickets stay unlinked
without error, and the subtask and orphan buckets are untouched. -/
theorem C8_link_targets (hs : HierarchyStructure) :
    linkStructure hs
      = { hs with
          epics := hs.epics.map (fun e => { e with children := e.children
            ++ ((hs.stories.filter (fun x => targetIn hs.epics x == some e.key)).map
                (fun x => x.key))
            ++ ((hs.tasks.filter
                (fun x => targetInFallback hs.stories hs.epics x == some e.key)).map
                (fun x => x.key)) }),
          stories := hs.stories.map (fun sE => { sE with children := sE.children
            ++ ((hs.tasks.filter (fun x => targetIn hs.stories x == some sE.key)).map
                (fun x => x.key))
            ++ ((hs.subtasks.filter (fun x => targetIn hs.stories x == some sE.key)).map
                (fun x => x.key)) }),
          tasks := hs.tasks.map (fun tE => { tE with children := tE.children
            ++ ((hs.subtasks.filter
                (fun x => targetInFallback hs.stories hs.tasks x == some tE.key)).map
                (fun x => x.key)) }) } := by
  obtain ⟨e, s, tk, st, o⟩ := hs
  have hS1 : s.foldl storyLinkStep (⟨e, s, tk, st, o⟩ : HierarchyStructure)
      = (⟨appendFold (targetIn e) s e, s, tk, st, o⟩ : HierarchyStructure) :=
    storyPass_eq s ⟨e, s, tk, st, o⟩
  have hS2 : tk.foldl taskLinkStep
        (⟨appendFold (targetIn e) s e, s, tk, st, o⟩ : HierarchyStructure)
      = (⟨appendFold (targetInFallback s (appendFold (targetIn e) s e)) tk
            (appendFold (targetIn e) s e),
          appendFold (targetIn s) tk s, tk, st, o⟩ : HierarchyStructure) :=
    taskPass_eq tk ⟨appendFold (targetIn e) s e, s, tk, st, o⟩
  rw [targetInFallback_congr s s (appendFold (targetIn e) s e) e (fun _ => rfl)
    (fun k => hasKey_appendFold (targetIn e) s e k)] at hS2
  have hS3 : st.foldl subtaskLinkStep
        (⟨appendFold (targetInFallback s e) tk (appendFold (targetIn e) s e),
          appendFold (targetIn s) tk s, tk, st, o⟩ : HierarchyStructure)
      = (⟨appendFold (targetInFallback s e) tk (appendFold (targetIn e) s e),
          appendFold (targetIn (appendFold (targetIn s) tk s)) st
            (appendFold (targetIn s) tk s),
          appendFold (targetInFallback (appendFold (targetIn s) tk s) tk) st tk,
          st, o⟩ : HierarchyStructure) :=
    subtaskPass_eq st _
  rw [targetIn_congr (appendFold (targetIn s) tk s) s
    (fun k => hasKey_appendFold (targetIn s) tk s k)] at hS3
  rw [targetInFallback_congr (appendFold (targetIn s) tk s) s tk tk
    (fun k => hasKey_appendFold (targetIn s) tk s k) (fun _ => rfl)] at hS3
  have hassembly : linkStructure ⟨e, s, tk, st, o⟩
      = (⟨appendFold (targetInFallback s e) tk (appendFold (targetIn e) s e),
          appendFold (targetIn s) st (appendFold (targetIn s) tk s),
          appendFold (targetInFallback s tk) st tk, st, o⟩ : HierarchyStructure) := by
    show ((s.foldl storyLinkStep (⟨e, s, tk, st, o⟩ : HierarchyStructure)).tasks.foldl
          taskLinkStep (s.foldl storyLinkStep (⟨e, s, tk, st, o⟩ : HierarchyStructure))).subtasks.foldl
          subtaskLinkStep
          ((s.foldl storyLinkStep (⟨e, s, tk, st, o⟩ : HierarchyStructure)).tasks.foldl
            taskLinkStep (s.foldl storyLinkStep (⟨e, s, tk, st, o⟩ : HierarchyStructure))) = _
    rw [hS1]
    show (tk.foldl taskLinkStep
          (⟨appendFold (targetIn e) s e, s, tk, st, o⟩ : HierarchyStructure)).subtasks.foldl
          subtaskLinkStep
          (tk.foldl taskLinkStep
            (⟨appendFold (targetIn e) s e, s, tk, st, o⟩ : HierarchyStructure)) = _
    rw [hS2]
    show st.foldl subtaskLinkStep
        (⟨appendFold (targetInFallback s e) tk (appendFold (targetIn e) s e),
          appendFold (targetIn s) tk s, tk, st, o⟩ : HierarchyStructure) = _
    rw [hS3]
  rw [hassembly, appendFold_appendFold, appendFold_appendFold, appendFold_eq]

end JiraOrganizer
